import Mathlib

/-!
Shallow embedding of `nexus_keycode/protocols/channel_origin_commands.py`:
Nexus Channel origin-command tokens (decimal-digit strings of the form
[1-digit type code][body digits][auth digits], authenticated with
SipHash-2-4 over a canonical little-endian byte packing).

Byte strings are modelled as `List Nat` (one entry per byte), digit strings
as `List Char`, and machine words as `Nat` reduced modulo the relevant
power of two.  Failure conditions (Python `assert` on key length,
`bitstring` field-overflow exceptions) are modelled with an explicit
result type, following the error taxonomy of the specification
(`InvalidKeyLength`, `FieldOverflow`).
-/

/-- Little-endian interpretation of a list of bytes as a natural number
(as done by `struct`/`bitstring` when reading `uintle` fields). -/
def bytesToNatLE : List Nat → Nat
  | [] => 0
  | b :: bs => b + 256 * bytesToNatLE bs

/-- Rotate the low 64 bits of `x` left by `b` (for `0 < b < 64`). -/
def rotl64 (x b : Nat) : Nat :=
  (((x <<< b) % 2 ^ 64) ||| (x >>> (64 - b))) % 2 ^ 64

/-- Internal 4-word state of SipHash. -/
structure SipState where
  v0 : Nat
  v1 : Nat
  v2 : Nat
  v3 : Nat

/-- One SipRound of the SipHash permutation. -/
def sipRound (s : SipState) : SipState :=
  let v0 := (s.v0 + s.v1) % 2 ^ 64
  let v1 := rotl64 s.v1 13
  let v1 := v1 ^^^ v0
  let v0 := rotl64 v0 32
  let v2 := (s.v2 + s.v3) % 2 ^ 64
  let v3 := rotl64 s.v3 16
  let v3 := v3 ^^^ v2
  let v0 := (v0 + v3) % 2 ^ 64
  let v3 := rotl64 v3 21
  let v3 := v3 ^^^ v0
  let v2 := (v2 + v1) % 2 ^ 64
  let v1 := rotl64 v1 17
  let v1 := v1 ^^^ v2
  let v2 := rotl64 v2 32
  ⟨v0, v1, v2, v3⟩

/-- Absorb one 64-bit message word (c = 2 compression rounds). -/
def sipCompress (s : SipState) (m : Nat) : SipState :=
  let s1 : SipState := ⟨s.v0, s.v1, s.v2, s.v3 ^^^ m⟩
  let s2 := sipRound (sipRound s1)
  ⟨s2.v0 ^^^ m, s2.v1, s2.v2, s2.v3⟩

/-- Absorb the whole message: full 8-byte words first, then the final
word made of the remaining bytes padded with zeros and the message
length (mod 256) in the most significant byte. -/
def sipBody (len : Nat) : SipState → List Nat → SipState
  | s, b0 :: b1 :: b2 :: b3 :: b4 :: b5 :: b6 :: b7 :: rest =>
      sipBody len (sipCompress s (bytesToNatLE [b0, b1, b2, b3, b4, b5, b6, b7])) rest
  | s, rest => sipCompress s (bytesToNatLE rest + (len % 256) * 2 ^ 56)

/-- SipHash-2-4 of a byte string under a 16-byte key: the keyed hash used
by the source (`siphash.SipHash_2_4(key, msg).hash()`), returning a
64-bit tag. -/
def SipHash_2_4 (key msg : List Nat) : Nat :=
  let k0 := bytesToNatLE (key.take 8)
  let k1 := bytesToNatLE ((key.drop 8).take 8)
  let s0 : SipState :=
    ⟨k0 ^^^ 0x736f6d6570736575, k1 ^^^ 0x646f72616e646f6d,
     k0 ^^^ 0x6c7967656e657261, k1 ^^^ 0x7465646279746573⟩
  let s1 := sipBody msg.length s0 msg
  let s2 : SipState := ⟨s1.v0, s1.v1, s1.v2 ^^^ 0xff, s1.v3⟩
  let s3 := sipRound (sipRound (sipRound (sipRound s2)))
  ((s3.v0 ^^^ s3.v1) ^^^ s3.v2) ^^^ s3.v3

/-- Fuel-driven core of decimal formatting (most significant digit first). -/
def natToCharsGo : Nat → Nat → List Char
  | 0, _ => []
  | fuel + 1, n =>
      if n < 10 then [Nat.digitChar n]
      else natToCharsGo fuel (n / 10) ++ [Nat.digitChar (n % 10)]

/-- Decimal representation of a natural number as characters, as produced
by Python string formatting of an `int`. -/
def natToChars (n : Nat) : List Char := natToCharsGo (n + 1) n

/-- Left-pad a digit string with `'0'` up to width `w` (Python `{:0wd}`
padding: never truncates). -/
def zeroPadChars (w : Nat) (s : List Char) : List Char :=
  List.replicate (w - s.length) '0' ++ s

/-- Embedding of `ChannelOriginCommandToken.digits_from_siphash`: format the
low 32 bits of the tag zero-padded to width `digits` and keep the last
`digits` characters (Python slice `[-digits:]`, which is the whole string
when `digits = 0`). -/
def digits_from_siphash (tag : Nat) (digits : Nat) : List Char :=
  let padded := zeroPadChars digits (natToChars (tag % 2 ^ 32))
  if digits = 0 then padded else padded.drop (padded.length - digits)

/-- Value of a decimal digit string as a natural number (Python `int(...)`
applied to a string of digit characters). -/
def charsToNat (s : List Char) : Nat :=
  s.foldl (fun a c => a * 10 + (c.toNat - 48)) 0

/-- Little-endian bytes of `v` over exactly `w` bytes. -/
def natToBytesLE : Nat → Nat → List Nat
  | 0, _ => []
  | w + 1, v => v % 256 :: natToBytesLE w (v / 256)

/-- Embedding of `bitstring.pack` over a list of `uintle` fields, given as
(byte-width, value) pairs: yields the concatenated little-endian bytes, or
`none` when some value does not fit its field (where `bitstring` raises). -/
def packFieldsLE : List (Nat × Nat) → Option (List Nat)
  | [] => some []
  | (w, v) :: rest =>
      if v < 2 ^ (8 * w) then
        match packFieldsLE rest with
        | some bs => some (natToBytesLE w v ++ bs)
        | none => none
      else none

/-- Embedding of `ChannelOriginCommandToken`: a 1-digit type code, body
digit characters and auth digit characters. -/
structure ChannelOriginCommandToken where
  type_code : Nat
  body : List Char
  auth : List Char
deriving DecidableEq

/-- Modelled from the spec: `full_obscure` (from
`nexus_keycode/protocols/utils.py`, not among the provided sources) is an
external, length-preserving obfuscation transform applied to exactly the
first `obscured_digit_count` characters, leaving the rest untouched.  The
opaque per-character transform is taken as a parameter `f`. -/
def full_obscure (f : List Char → List Char) (s : List Char)
    (obscured_digit_count : Nat) : List Char :=
  f (s.take obscured_digit_count) ++ s.drop obscured_digit_count

/-- Embedding of `ChannelOriginCommandToken.to_digits`: concatenate type
code, body and auth; when `obscured`, obfuscate everything except the auth
digits. -/
def ChannelOriginCommandToken.to_digits (f : List Char → List Char)
    (t : ChannelOriginCommandToken) (obscured : Bool) : List Char :=
  let result := natToChars t.type_code ++ t.body ++ t.auth
  if obscured then
    full_obscure f result (result.length - t.auth.length)
  else result

/-- Wire-level origin command types (the enum `OriginCommandType`). -/
inductive OriginCommandType where
  | GENERIC_CONTROLLER_ACTION
  | UNLOCK_ACCESSORY
  | UNLINK_ACCESSORY
  | LINK_ACCESSORY_MODE_3
deriving DecidableEq

/-- Numeric wire code of each origin command type. -/
def OriginCommandType.value : OriginCommandType → Nat
  | .GENERIC_CONTROLLER_ACTION => 0
  | .UNLOCK_ACCESSORY => 1
  | .UNLINK_ACCESSORY => 2
  | .LINK_ACCESSORY_MODE_3 => 9

/-- Generic controller actions (`GenericControllerActionType`). -/
inductive GenericControllerActionType where
  | UNLINK_ALL_ACCESSORIES
  | UNLOCK_ALL_ACCESSORIES
deriving DecidableEq

/-- Numeric action code of each generic controller action. -/
def GenericControllerActionType.value : GenericControllerActionType → Nat
  | .UNLINK_ALL_ACCESSORIES => 0
  | .UNLOCK_ALL_ACCESSORIES => 1

/-- Failure conditions of a builder call, named as in the specification:
the key-length precondition (`assert len(key) == 16` in the source) and
field overflow inside `bitstring.pack`. -/
inductive BuilderError where
  | InvalidKeyLength
  | FieldOverflow
deriving DecidableEq

/-- Result of a builder call: a complete token, or a failure. -/
inductive BuildResult where
  | ok : ChannelOriginCommandToken → BuildResult
  | error : BuilderError → BuildResult
deriving DecidableEq

/-- Embedding of
`GenericControllerActionToken._generic_controller_action_builder`:
key-length check, 9-byte packing
`[uint32 count][uint8 0][uint32 action]`, then a token with type code 0,
2-digit zero-padded action code body, and 6 auth digits from
SipHash-2-4 under the controller key. -/
def generic_controller_action_builder (type_ : GenericControllerActionType)
    (controller_command_count : Nat) (controller_sym_key : List Nat) : BuildResult :=
  if controller_sym_key.length = 16 then
    match packFieldsLE
        [(4, controller_command_count),
         (1, OriginCommandType.GENERIC_CONTROLLER_ACTION.value),
         (4, type_.value)] with
    | some packed_target_inputs =>
        .ok ⟨OriginCommandType.GENERIC_CONTROLLER_ACTION.value,
             zeroPadChars 2 (natToChars type_.value),
             digits_from_siphash (SipHash_2_4 controller_sym_key packed_target_inputs) 6⟩
    | none => .error .FieldOverflow
  else .error .InvalidKeyLength

/-- Embedding of `GenericControllerActionToken.unlink_all_accessories`. -/
def unlink_all_accessories (controller_command_count : Nat)
    (controller_sym_key : List Nat) : BuildResult :=
  generic_controller_action_builder .UNLINK_ALL_ACCESSORIES
    controller_command_count controller_sym_key

/-- Embedding of `GenericControllerActionToken.unlock_all_accessories`. -/
def unlock_all_accessories (controller_command_count : Nat)
    (controller_sym_key : List Nat) : BuildResult :=
  generic_controller_action_builder .UNLOCK_ALL_ACCESSORIES
    controller_command_count controller_sym_key

/-- Embedding of `SpecificLinkedAccessoryToken._specific_accessory_builder`
combined with `SpecificLinkedAccessoryToken.__init__`: key-length check,
11-byte packing `[uint32 count][uint8 type][uint16 authority][uint32 device]`
from the masked accessory Nexus id, then a token whose body is the single
digit `(id & 0xFFFFFFFF) % 10` and whose auth is 6 digits from
SipHash-2-4 under the controller key. -/
def specific_accessory_builder (type_ : OriginCommandType)
    (accessory_nexus_id controller_command_count : Nat)
    (controller_sym_key : List Nat) : BuildResult :=
  if controller_sym_key.length = 16 then
    let nexus_authority_id := (accessory_nexus_id &&& 0xFFFF00000000) >>> 32
    let nexus_device_id := accessory_nexus_id &&& 0xFFFFFFFF
    match packFieldsLE
        [(4, controller_command_count),
         (1, type_.value),
         (2, nexus_authority_id),
         (4, nexus_device_id)] with
    | some packed_target_inputs =>
        .ok ⟨type_.value,
             zeroPadChars 1 (natToChars ((accessory_nexus_id &&& 0xFFFFFFFF) % 10)),
             digits_from_siphash (SipHash_2_4 controller_sym_key packed_target_inputs) 6⟩
    | none => .error .FieldOverflow
  else .error .InvalidKeyLength

/-- Embedding of `SpecificLinkedAccessoryToken.unlink_specific_accessory`. -/
def unlink_specific_accessory (accessory_nexus_id controller_command_count : Nat)
    (controller_sym_key : List Nat) : BuildResult :=
  specific_accessory_builder .UNLINK_ACCESSORY accessory_nexus_id
    controller_command_count controller_sym_key

/-- Embedding of `SpecificLinkedAccessoryToken.unlock_specific_accessory`. -/
def unlock_specific_accessory (accessory_nexus_id controller_command_count : Nat)
    (controller_sym_key : List Nat) : BuildResult :=
  specific_accessory_builder .UNLOCK_ACCESSORY accessory_nexus_id
    controller_command_count controller_sym_key

/-- Embedding of `LinkCommandToken.challenge_mode_3`: key-length checks,
stage 1 (4-byte packing of the accessory count hashed under the accessory
key giving 6 challenge digits, the token body), stage 2 (9-byte packing
`[uint32 controller count][uint8 9][uint32 challenge digits as integer]`
hashed under the controller key giving the 6 auth digits). -/
def challenge_mode_3 (controller_command_count accessory_command_count : Nat)
    (accessory_sym_key controller_sym_key : List Nat) : BuildResult :=
  if accessory_sym_key.length = 16 then
    if controller_sym_key.length = 16 then
      match packFieldsLE [(4, accessory_command_count)] with
      | some packed_target_inputs =>
          let accessory_auth := SipHash_2_4 accessory_sym_key packed_target_inputs
          let accessory_auth_digits := digits_from_siphash accessory_auth 6
          match packFieldsLE
              [(4, controller_command_count),
               (1, OriginCommandType.LINK_ACCESSORY_MODE_3.value),
               (4, charsToNat accessory_auth_digits)] with
          | some packed_auth_inputs =>
              .ok ⟨OriginCommandType.LINK_ACCESSORY_MODE_3.value,
                   accessory_auth_digits,
                   digits_from_siphash (SipHash_2_4 controller_sym_key packed_auth_inputs) 6⟩
          | none => .error .FieldOverflow
      | none => .error .FieldOverflow
    else .error .InvalidKeyLength
  else .error .InvalidKeyLength

/-- Decimal-digit character predicate (ASCII 48-57). -/
def isDecDigit (c : Char) : Bool :=
  48 ≤ c.toNat && c.toNat ≤ 57

theorem digitChar_isDecDigit {d : Nat} (h : d < 10) :
    isDecDigit (Nat.digitChar d) = true := by
  interval_cases d <;> decide

theorem natToCharsGo_irrel : ∀ f g n : Nat, n < f → n < g →
    natToCharsGo f n = natToCharsGo g n := by
  intro f
  induction f with
  | zero => intro g n h; omega
  | succ f ih =>
    intro g n hf hg
    match g, hg with
    | g + 1, _ =>
      simp only [natToCharsGo]
      by_cases h10 : n < 10
      · simp [h10]
      · have hd : n / 10 < n := Nat.div_lt_self (by omega) (by omega)
        simp only [h10, if_false]
        rw [ih g (n / 10) (by omega) (by omega)]

theorem natToChars_eq_of_lt {n : Nat} (h : n < 10) :
    natToChars n = [Nat.digitChar n] := by
  simp [natToChars, natToCharsGo, h]

theorem natToChars_eq_of_ge {n : Nat} (h : 10 ≤ n) :
    natToChars n = natToChars (n / 10) ++ [Nat.digitChar (n % 10)] := by
  have hd : n / 10 < n := Nat.div_lt_self (by omega) (by omega)
  have h1 : natToChars n = natToCharsGo n (n / 10) ++ [Nat.digitChar (n % 10)] := by
    simp only [natToChars, natToCharsGo]
    rw [if_neg (by omega)]
  rw [h1, natToCharsGo_irrel n (n / 10 + 1) (n / 10) (by omega) (by omega)]
  rfl

theorem natToChars_length_pos (n : Nat) : 0 < (natToChars n).length := by
  by_cases h : n < 10
  · simp [natToChars_eq_of_lt h]
  · simp [natToChars_eq_of_ge (by omega : 10 ≤ n)]

theorem natToChars_length_le : ∀ k n : Nat, 1 ≤ k → n < 10 ^ k →
    (natToChars n).length ≤ k := by
  intro k
  induction k with
  | zero => omega
  | succ k ih =>
    intro n _ hn
    by_cases h10 : n < 10
    · simp [natToChars_eq_of_lt h10]
    · have hk1 : 1 ≤ k := by
        by_contra hk0
        have hk00 : k = 0 := by omega
        subst hk00
        simp [pow_succ] at hn
        omega
      rw [natToChars_eq_of_ge (by omega : 10 ≤ n)]
      have hdiv : n / 10 < 10 ^ k := by
        rw [Nat.div_lt_iff_lt_mul (by omega : 0 < 10)]
        calc n < 10 ^ (k + 1) := hn
        _ = 10 ^ k * 10 := by rw [pow_succ]
      have := ih (n / 10) hk1 hdiv
      simp only [List.length_append, List.length_cons, List.length_nil]
      omega

theorem lt_natToChars_length : ∀ k n : Nat, 10 ^ k ≤ n → k < (natToChars n).length := by
  intro k
  induction k with
  | zero => intro n _; exact natToChars_length_pos n
  | succ k ih =>
    intro n hn
    have h10 : 10 ≤ n := by
      have : (10 : Nat) ≤ 10 ^ (k + 1) := by
        calc (10 : Nat) = 10 ^ 1 := (pow_one 10).symm
        _ ≤ 10 ^ (k + 1) := Nat.pow_le_pow_right (by omega) (by omega)
      omega
    rw [natToChars_eq_of_ge h10]
    have hdiv : 10 ^ k ≤ n / 10 := by
      rw [Nat.le_div_iff_mul_le (by omega : 0 < 10)]
      calc 10 ^ k * 10 = 10 ^ (k + 1) := (pow_succ 10 k).symm
      _ ≤ n := hn
    have := ih (n / 10) hdiv
    simp only [List.length_append, List.length_cons, List.length_nil]
    omega

theorem natToChars_digits (n : Nat) : ∀ c ∈ natToChars n, isDecDigit c = true := by
  induction n using Nat.strong_induction_on with
  | _ n ih =>
    intro c hc
    by_cases h10 : n < 10
    · rw [natToChars_eq_of_lt h10] at hc
      simp at hc
      subst hc
      exact digitChar_isDecDigit h10
    · rw [natToChars_eq_of_ge (by omega : 10 ≤ n)] at hc
      rcases List.mem_append.mp hc with h | h
      · exact ih (n / 10) (Nat.div_lt_self (by omega) (by omega)) c h
      · simp at h
        subst h
        exact digitChar_isDecDigit (Nat.mod_lt n (by omega))

theorem zeroPadChars_length {w : Nat} {s : List Char} (h : s.length ≤ w) :
    (zeroPadChars w s).length = w := by
  simp [zeroPadChars]
  omega

theorem zeroPadChars_digits {w : Nat} {s : List Char}
    (h : ∀ c ∈ s, isDecDigit c = true) :
    ∀ c ∈ zeroPadChars w s, isDecDigit c = true := by
  intro c hc
  rcases List.mem_append.mp hc with h0 | hs
  · rw [List.eq_of_mem_replicate h0]
    decide
  · exact h c hs

theorem natToChars_split : ∀ k a b : Nat, 1 ≤ k → 1 ≤ a → b < 10 ^ k →
    natToChars (a * 10 ^ k + b) = natToChars a ++ zeroPadChars k (natToChars b) := by
  intro k
  induction k with
  | zero => omega
  | succ k ih =>
    intro a b _ ha hb
    by_cases hk0 : k = 0
    · subst hk0
      have hb10 : b < 10 := by simpa using hb
      have hm : 10 ≤ a * 10 ^ 1 + b := by
        have : 10 ≤ a * 10 := by omega
        simpa [pow_one] using by omega
      rw [natToChars_eq_of_ge hm]
      have hdiv : (a * 10 ^ 1 + b) / 10 = a := by
        rw [pow_one]
        omega
      have hmod : (a * 10 ^ 1 + b) % 10 = b := by
        rw [pow_one]
        omega
      rw [hdiv, hmod]
      simp [zeroPadChars, natToChars_eq_of_lt hb10]
    · obtain ⟨k, rfl⟩ : ∃ j, k = j + 1 := ⟨k - 1, by omega⟩
      have hA : a * 10 ^ (k + 1 + 1) + b = (a * 10 ^ (k + 1)) * 10 + b := by ring
      have hm : 10 ≤ a * 10 ^ (k + 1 + 1) + b := by
        have h1 : 10 ≤ 10 ^ (k + 1 + 1) := by
          calc (10 : Nat) = 10 ^ 1 := (pow_one 10).symm
          _ ≤ 10 ^ (k + 1 + 1) := Nat.pow_le_pow_right (by omega) (by omega)
        have h2 : 10 ^ (k + 1 + 1) ≤ a * 10 ^ (k + 1 + 1) := by
          calc 10 ^ (k + 1 + 1) = 1 * 10 ^ (k + 1 + 1) := (one_mul _).symm
          _ ≤ a * 10 ^ (k + 1 + 1) := Nat.mul_le_mul_right _ ha
        omega
      have hdiv : (a * 10 ^ (k + 1 + 1) + b) / 10 = a * 10 ^ (k + 1) + b / 10 := by
        rw [hA]
        set A := a * 10 ^ (k + 1)
        omega
      have hmod : (a * 10 ^ (k + 1 + 1) + b) % 10 = b % 10 := by
        rw [hA]
        set A := a * 10 ^ (k + 1)
        omega
      have hbdiv : b / 10 < 10 ^ (k + 1) := by
        rw [Nat.div_lt_iff_lt_mul (by omega : 0 < 10)]
        calc b < 10 ^ (k + 1 + 1) := hb
        _ = 10 ^ (k + 1) * 10 := by rw [pow_succ]
      rw [natToChars_eq_of_ge hm, hdiv, hmod, ih a (b / 10) (by omega) ha hbdiv]
      rw [List.append_assoc]
      congr 1
      by_cases hb10 : b < 10
      · have hb0 : b / 10 = 0 := by omega
        have hbm : b % 10 = b := by omega
        rw [hb0, hbm, natToChars_eq_of_lt (by omega : (0 : Nat) < 10),
          natToChars_eq_of_lt hb10]
        simp [zeroPadChars, List.replicate_succ']
        decide
      · rw [natToChars_eq_of_ge (by omega : 10 ≤ b)]
        simp only [zeroPadChars, List.length_append, List.length_cons,
          List.length_nil]
        rw [List.append_assoc]
        congr 2
        omega

theorem digits_from_siphash_eq (tag n : Nat) (hn : 1 ≤ n) :
    digits_from_siphash tag n = zeroPadChars n (natToChars (tag % 2 ^ 32 % 10 ^ n)) := by
  simp only [digits_from_siphash]
  rw [if_neg (by omega)]
  generalize tag % 2 ^ 32 = v
  by_cases hlt : v < 10 ^ n
  · rw [Nat.mod_eq_of_lt hlt]
    have hlen : (zeroPadChars n (natToChars v)).length = n :=
      zeroPadChars_length (natToChars_length_le n v hn hlt)
    rw [hlen]
    simp
  · have hpow : 0 < 10 ^ n := by positivity
    have ha : 1 ≤ v / 10 ^ n := (Nat.one_le_div_iff hpow).mpr (le_of_not_lt hlt)
    have hsplit := natToChars_split n (v / 10 ^ n) (v % 10 ^ n) hn ha (Nat.mod_lt _ hpow)
    have hvdm := Nat.div_add_mod v (10 ^ n)
    rw [Nat.mul_comm] at hvdm
    rw [hvdm] at hsplit
    have hnopad : zeroPadChars n (natToChars v) = natToChars v := by
      have hlt2 := lt_natToChars_length n v (le_of_not_lt hlt)
      have hle : n ≤ (natToChars v).length := by omega
      simp [zeroPadChars, Nat.sub_eq_zero_of_le hle]
    have hpadlen : (zeroPadChars n (natToChars (v % 10 ^ n))).length = n :=
      zeroPadChars_length (natToChars_length_le n _ hn (Nat.mod_lt _ hpow))
    rw [hnopad, hsplit]
    rw [List.length_append, hpadlen, Nat.add_sub_cancel]
    exact List.drop_left _ _

theorem digits_from_siphash_length (tag n : Nat) (hn : 1 ≤ n) :
    (digits_from_siphash tag n).length = n := by
  rw [digits_from_siphash_eq tag n hn]
  exact zeroPadChars_length (natToChars_length_le n _ hn (Nat.mod_lt _ (by positivity)))

theorem digits_from_siphash_digits (tag n : Nat) (hn : 1 ≤ n) :
    ∀ c ∈ digits_from_siphash tag n, isDecDigit c = true := by
  rw [digits_from_siphash_eq tag n hn]
  exact zeroPadChars_digits (natToChars_digits _)

theorem charsToNat_foldl_lt : ∀ (l : List Char) (a : Nat),
    (∀ c ∈ l, isDecDigit c = true) →
    List.foldl (fun a c => a * 10 + (c.toNat - 48)) a l < (a + 1) * 10 ^ l.length := by
  intro l
  induction l with
  | nil => intro a _; simp
  | cons c l ih =>
    intro a h
    have hc : c.toNat - 48 ≤ 9 := by
      have hd := h c (by simp)
      simp [isDecDigit] at hd
      omega
    have hrec := ih (a * 10 + (c.toNat - 48)) (fun x hx => h x (by simp [hx]))
    simp only [List.foldl_cons, List.length_cons]
    calc List.foldl (fun a c => a * 10 + (c.toNat - 48)) (a * 10 + (c.toNat - 48)) l
        < (a * 10 + (c.toNat - 48) + 1) * 10 ^ l.length := hrec
    _ ≤ ((a + 1) * 10) * 10 ^ l.length :=
        Nat.mul_le_mul_right _ (by omega)
    _ = (a + 1) * 10 ^ (l.length + 1) := by ring

theorem charsToNat_lt (l : List Char) (h : ∀ c ∈ l, isDecDigit c = true) :
    charsToNat l < 10 ^ l.length := by
  have := charsToNat_foldl_lt l 0 h
  simpa [charsToNat] using this

theorem packFieldsLE_nil : packFieldsLE [] = some [] := rfl

theorem packFieldsLE_cons_pos {w v : Nat} {rest : List (Nat × Nat)}
    (h : v < 2 ^ (8 * w)) :
    packFieldsLE ((w, v) :: rest) =
      (packFieldsLE rest).map (fun bs => natToBytesLE w v ++ bs) := by
  simp only [packFieldsLE, if_pos h]
  cases packFieldsLE rest <;> simp

theorem packFieldsLE_cons_neg {w v : Nat} {rest : List (Nat × Nat)}
    (h : ¬v < 2 ^ (8 * w)) :
    packFieldsLE ((w, v) :: rest) = none := by
  simp [packFieldsLE, h]

theorem and_FFFFFFFF_eq_mod (x : Nat) : x &&& 0xFFFFFFFF = x % 2 ^ 32 := by
  have h : (0xFFFFFFFF : Nat) = 2 ^ 32 - 1 := by norm_num
  rw [h, Nat.and_pow_two_sub_one_eq_mod]

theorem authority_mask_eq (x : Nat) :
    (x &&& 0xFFFF00000000) >>> 32 = x / 2 ^ 32 % 2 ^ 16 := by
  have hmask : (0xFFFF00000000 : Nat) = (2 ^ 16 - 1) <<< 32 := by decide
  apply Nat.eq_of_testBit_eq
  intro i
  rw [← Nat.shiftRight_eq_div_pow]
  simp only [Nat.testBit_shiftRight, Nat.testBit_and, Nat.testBit_mod_two_pow, hmask,
    Nat.testBit_shiftLeft, Nat.testBit_two_pow_sub_one]
  have h32 : 32 + i - 32 = i := by omega
  rw [h32]
  by_cases h : i < 16 <;> simp [h]

theorem generic_builder_ok (t : GenericControllerActionType) (count : Nat)
    (key : List Nat) (hkey : key.length = 16) (hcount : count < 2 ^ 32) :
    generic_controller_action_builder t count key =
      .ok ⟨0, zeroPadChars 2 (natToChars t.value),
        digits_from_siphash
          (SipHash_2_4 key (natToBytesLE 4 count ++ 0 :: natToBytesLE 4 t.value)) 6⟩ := by
  have htv : t.value < 2 ^ (8 * 4) := by cases t <;> decide
  have hc : count < 2 ^ (8 * 4) := by
    have he : (2 : Nat) ^ (8 * 4) = 2 ^ 32 := by norm_num
    omega
  have h1 : OriginCommandType.GENERIC_CONTROLLER_ACTION.value < 2 ^ (8 * 1) := by decide
  simp only [generic_controller_action_builder]
  rw [if_pos hkey, packFieldsLE_cons_pos hc, packFieldsLE_cons_pos h1,
    packFieldsLE_cons_pos htv, packFieldsLE_nil]
  simp [natToBytesLE, OriginCommandType.value]

theorem specific_builder_ok (t : OriginCommandType) (id count : Nat)
    (key : List Nat) (hkey : key.length = 16) (hcount : count < 2 ^ 32) :
    specific_accessory_builder t id count key =
      .ok ⟨t.value, zeroPadChars 1 (natToChars (id % 2 ^ 32 % 10)),
        digits_from_siphash
          (SipHash_2_4 key
            (natToBytesLE 4 count ++ t.value ::
              (natToBytesLE 2 (id / 2 ^ 32 % 2 ^ 16) ++ natToBytesLE 4 (id % 2 ^ 32)))) 6⟩ := by
  have hc : count < 2 ^ (8 * 4) := by
    have he : (2 : Nat) ^ (8 * 4) = 2 ^ 32 := by norm_num
    omega
  have htv : t.value < 2 ^ (8 * 1) := by cases t <;> decide
  have hauth : (id &&& 0xFFFF00000000) >>> 32 < 2 ^ (8 * 2) := by
    rw [authority_mask_eq]
    have : (2 : Nat) ^ (8 * 2) = 2 ^ 16 := by norm_num
    have := Nat.mod_lt (id / 2 ^ 32) (show 0 < 2 ^ 16 by positivity)
    omega
  have hdev : id &&& 0xFFFFFFFF < 2 ^ (8 * 4) := by
    rw [and_FFFFFFFF_eq_mod]
    have he : (2 : Nat) ^ (8 * 4) = 2 ^ 32 := by norm_num
    have := Nat.mod_lt id (show 0 < 2 ^ 32 by positivity)
    omega
  have htv256 : t.value % 256 = t.value := by cases t <;> rfl
  simp only [specific_accessory_builder]
  rw [if_pos hkey, packFieldsLE_cons_pos hc, packFieldsLE_cons_pos htv,
    packFieldsLE_cons_pos hauth, packFieldsLE_cons_pos hdev, packFieldsLE_nil]
  simp [natToBytesLE, authority_mask_eq, and_FFFFFFFF_eq_mod, htv256]

theorem challenge_ok (cc ac : Nat) (akey ckey : List Nat)
    (hak : akey.length = 16) (hck : ckey.length = 16)
    (hcc : cc < 2 ^ 32) (hac : ac < 2 ^ 32) :
    challenge_mode_3 cc ac akey ckey =
      .ok ⟨9, digits_from_siphash (SipHash_2_4 akey (natToBytesLE 4 ac)) 6,
        digits_from_siphash
          (SipHash_2_4 ckey
            (natToBytesLE 4 cc ++ 9 ::
              natToBytesLE 4
                (charsToNat (digits_from_siphash (SipHash_2_4 akey (natToBytesLE 4 ac)) 6)))) 6⟩ := by
  have hac' : ac < 2 ^ (8 * 4) := by
    have he : (2 : Nat) ^ (8 * 4) = 2 ^ 32 := by norm_num
    omega
  have hcc' : cc < 2 ^ (8 * 4) := by
    have he : (2 : Nat) ^ (8 * 4) = 2 ^ 32 := by norm_num
    omega
  have h9 : OriginCommandType.LINK_ACCESSORY_MODE_3.value < 2 ^ (8 * 1) := by decide
  have hch : ∀ tag : Nat, charsToNat (digits_from_siphash tag 6) < 2 ^ (8 * 4) := by
    intro tag
    have h1 := charsToNat_lt (digits_from_siphash tag 6)
      (digits_from_siphash_digits tag 6 (by omega))
    rw [digits_from_siphash_length tag 6 (by omega)] at h1
    have he : (10 : Nat) ^ 6 < 2 ^ (8 * 4) := by norm_num
    omega
  simp only [challenge_mode_3]
  rw [if_pos hak, if_pos hck, packFieldsLE_cons_pos hac', packFieldsLE_nil]
  simp only [Option.map_some']
  rw [packFieldsLE_cons_pos hcc', packFieldsLE_cons_pos h9,
    packFieldsLE_cons_pos (hch _), packFieldsLE_nil]
  simp [natToBytesLE, OriginCommandType.value]

theorem natToChars_length_one {tc : Nat} (htc : tc < 10) :
    (natToChars tc).length = 1 := by
  rw [natToChars_eq_of_lt htc]
  rfl

theorem to_digits_length (f : List Char → List Char)
    (hf : ∀ l, (f l).length = l.length) (t : ChannelOriginCommandToken)
    (ob : Bool) :
    (t.to_digits f ob).length =
      (natToChars t.type_code).length + t.body.length + t.auth.length := by
  cases ob
  · simp [ChannelOriginCommandToken.to_digits]
    omega
  · simp only [ChannelOriginCommandToken.to_digits, full_obscure, if_true,
      List.length_append, List.length_take, List.length_drop, hf]
    omega

theorem to_digits_all_digits (f : List Char → List Char)
    (hfd : ∀ l, (∀ c ∈ l, isDecDigit c = true) → ∀ c ∈ f l, isDecDigit c = true)
    (t : ChannelOriginCommandToken) (ob : Bool)
    (hb : ∀ c ∈ t.body, isDecDigit c = true)
    (ha : ∀ c ∈ t.auth, isDecDigit c = true) :
    ∀ c ∈ t.to_digits f ob, isDecDigit c = true := by
  have hres : ∀ c ∈ natToChars t.type_code ++ t.body ++ t.auth, isDecDigit c = true := by
    intro c hc
    rcases List.mem_append.mp hc with h | h
    · rcases List.mem_append.mp h with h2 | h2
      · exact natToChars_digits _ c h2
      · exact hb c h2
    · exact ha c h
  cases ob
  · simpa [ChannelOriginCommandToken.to_digits] using hres
  · intro c hc
    simp only [ChannelOriginCommandToken.to_digits, full_obscure, if_true] at hc
    rcases List.mem_append.mp hc with h | h
    · exact hfd _ (fun x hx => hres x (List.mem_of_mem_take hx)) c h
    · exact hres c (List.mem_of_mem_drop h)

theorem to_digits_obscured_count {t : ChannelOriginCommandToken}
    (htc : t.type_code < 10) :
    (natToChars t.type_code ++ t.body ++ t.auth).length - t.auth.length =
      1 + t.body.length := by
  simp [natToChars_length_one htc]
  omega

theorem to_digits_false_drop (f : List Char → List Char)
    (t : ChannelOriginCommandToken) (htc : t.type_code < 10) :
    (t.to_digits f false).drop (1 + t.body.length) = t.auth := by
  simp only [ChannelOriginCommandToken.to_digits, Bool.false_eq_true, if_false]
  exact List.drop_left' (by simp [natToChars_length_one htc])

theorem to_digits_true_drop (f : List Char → List Char)
    (hf : ∀ l, (f l).length = l.length)
    (t : ChannelOriginCommandToken) (htc : t.type_code < 10) :
    (t.to_digits f true).drop (1 + t.body.length) = t.auth := by
  simp only [ChannelOriginCommandToken.to_digits, full_obscure, if_true,
    to_digits_obscured_count htc]
  rw [List.drop_left' (by rw [hf, List.length_take]; simp [natToChars_length_one htc])]
  exact List.drop_left' (by simp [natToChars_length_one htc])

theorem to_digits_true_eq (f : List Char → List Char)
    (t : ChannelOriginCommandToken) (htc : t.type_code < 10) :
    t.to_digits f true =
      f ((t.to_digits f false).take (1 + t.body.length)) ++
        (t.to_digits f false).drop (1 + t.body.length) := by
  simp only [ChannelOriginCommandToken.to_digits, full_obscure, if_true,
    Bool.false_eq_true, if_false, to_digits_obscured_count htc]

/-- All-zero 16-byte symmetric key (the key of the spec's example scenario). -/
def zeroKey16 : List Nat := List.replicate 16 0

/-- All-zero 15-byte byte string (an invalid key). -/
def zeroKey15 : List Nat := List.replicate 15 0

/-- All-zero 17-byte byte string (an invalid key). -/
def zeroKey17 : List Nat := List.replicate 17 0

theorem generic_builder_keylen {t : GenericControllerActionType} {count : Nat}
    {key : List Nat} (h : key.length ≠ 16) :
    generic_controller_action_builder t count key = .error .InvalidKeyLength := by
  simp [generic_controller_action_builder, h]

theorem specific_builder_keylen {t : OriginCommandType} {id count : Nat}
    {key : List Nat} (h : key.length ≠ 16) :
    specific_accessory_builder t id count key = .error .InvalidKeyLength := by
  simp [specific_accessory_builder, h]

theorem challenge_keylen {cc ac : Nat} {akey ckey : List Nat}
    (h : akey.length ≠ 16 ∨ ckey.length ≠ 16) :
    challenge_mode_3 cc ac akey ckey = .error .InvalidKeyLength := by
  by_cases ha : akey.length = 16
  · have hc : ckey.length ≠ 16 := by tauto
    simp [challenge_mode_3, ha, hc]
  · simp [challenge_mode_3, ha]

theorem generic_builder_overflow {t : GenericControllerActionType} {count : Nat}
    {key : List Nat} (hkey : key.length = 16) (h : 2 ^ 32 ≤ count) :
    generic_controller_action_builder t count key = .error .FieldOverflow := by
  have hn : ¬count < 2 ^ (8 * 4) := by
    have he : (2 : Nat) ^ (8 * 4) = 2 ^ 32 := by norm_num
    omega
  simp only [generic_controller_action_builder]
  rw [if_pos hkey, packFieldsLE_cons_neg hn]

theorem specific_builder_overflow {t : OriginCommandType} {id count : Nat}
    {key : List Nat} (hkey : key.length = 16) (h : 2 ^ 32 ≤ count) :
    specific_accessory_builder t id count key = .error .FieldOverflow := by
  have hn : ¬count < 2 ^ (8 * 4) := by
    have he : (2 : Nat) ^ (8 * 4) = 2 ^ 32 := by norm_num
    omega
  simp only [specific_accessory_builder]
  rw [if_pos hkey, packFieldsLE_cons_neg hn]

theorem challenge_overflow_accessory {cc ac : Nat} {akey ckey : List Nat}
    (hak : akey.length = 16) (hck : ckey.length = 16) (h : 2 ^ 32 ≤ ac) :
    challenge_mode_3 cc ac akey ckey = .error .FieldOverflow := by
  have hn : ¬ac < 2 ^ (8 * 4) := by
    have he : (2 : Nat) ^ (8 * 4) = 2 ^ 32 := by norm_num
    omega
  simp only [challenge_mode_3]
  rw [if_pos hak, if_pos hck, packFieldsLE_cons_neg hn]

theorem challenge_overflow_controller {cc ac : Nat} {akey ckey : List Nat}
    (hak : akey.length = 16) (hck : ckey.length = 16)
    (hac : ac < 2 ^ 32) (h : 2 ^ 32 ≤ cc) :
    challenge_mode_3 cc ac akey ckey = .error .FieldOverflow := by
  have hac' : ac < 2 ^ (8 * 4) := by
    have he : (2 : Nat) ^ (8 * 4) = 2 ^ 32 := by norm_num
    omega
  have hn : ¬cc < 2 ^ (8 * 4) := by
    have he : (2 : Nat) ^ (8 * 4) = 2 ^ 32 := by norm_num
    omega
  simp only [challenge_mode_3]
  rw [if_pos hak, if_pos hck, packFieldsLE_cons_pos hac', packFieldsLE_nil]
  simp only [Option.map_some']
  rw [packFieldsLE_cons_neg hn]

theorem natToBytesLE_length : ∀ w v : Nat, (natToBytesLE w v).length = w := by
  intro w
  induction w with
  | zero => intro v; rfl
  | succ w ih => intro v; simp [natToBytesLE, ih]

/-- C1: for every 16-byte controller key, every unsigned 32-bit
controller command count and each generic action (unlink-all = 0,
unlock-all = 1), the generic controller action builder returns a token
whose type digit is `'0'`, whose body is the 2-digit zero-padded action
code, and whose auth is the 6 least-significant decimal digits of the low
32 bits of the SipHash-2-4 tag of the 9-byte little-endian packing
`[uint32 count][uint8 0][uint32 action]` under the controller key. -/
theorem claim_C1 (key : List Nat) (count : Nat) (t : GenericControllerActionType)
    (hkey : key.length = 16) (hcount : count < 2 ^ 32) :
    ∃ tok, generic_controller_action_builder t count key = .ok tok ∧
      natToChars tok.type_code = ['0'] ∧
      tok.body = zeroPadChars 2 (natToChars t.value) ∧
      tok.body.length = 2 ∧
      (natToBytesLE 4 count ++ 0 :: natToBytesLE 4 t.value).length = 9 ∧
      tok.auth = zeroPadChars 6 (natToChars
        (SipHash_2_4 key (natToBytesLE 4 count ++ 0 :: natToBytesLE 4 t.value)
          % 2 ^ 32 % 10 ^ 6)) := by
  refine ⟨_, generic_builder_ok t count key hkey hcount, ?_, rfl, ?_, ?_, ?_⟩
  · show natToChars 0 = ['0']
    decide
  · have htv : t.value < 10 := by cases t <;> decide
    exact zeroPadChars_length (by rw [natToChars_length_one htv]; omega)
  · simp [natToBytesLE_length]
  · exact digits_from_siphash_eq _ 6 (by omega)

/-- Witness for C1 at the concrete input of the spec's example scenario
(all-zero key, count 1, unlink-all action). -/
theorem claim_C1_witness :
    ∃ tok, generic_controller_action_builder .UNLINK_ALL_ACCESSORIES 1 zeroKey16 = .ok tok ∧
      natToChars tok.type_code = ['0'] ∧
      tok.body = zeroPadChars 2 (natToChars GenericControllerActionType.UNLINK_ALL_ACCESSORIES.value) ∧
      tok.body.length = 2 ∧
      (natToBytesLE 4 1 ++ 0 :: natToBytesLE 4 GenericControllerActionType.UNLINK_ALL_ACCESSORIES.value).length = 9 ∧
      tok.auth = zeroPadChars 6 (natToChars
        (SipHash_2_4 zeroKey16
          (natToBytesLE 4 1 ++ 0 :: natToBytesLE 4 GenericControllerActionType.UNLINK_ALL_ACCESSORIES.value)
          % 2 ^ 32 % 10 ^ 6)) :=
  claim_C1 zeroKey16 1 .UNLINK_ALL_ACCESSORIES (by decide) (by decide)

/-- C2: for every pair of 16-byte keys and unsigned 32-bit counters, the
link-accessory builder yields a token with type digit 9 whose body is the
6 least-significant decimal digits of the low 32 bits of the SipHash-2-4
tag of the 4-byte little-endian accessory count under the accessory key,
and whose auth is the 6 least-significant decimal digits of the low 32
bits of the SipHash-2-4 tag, under the controller key, of the 9-byte
little-endian packing `[uint32 controller count][uint8 9][uint32 body as
integer]`. -/
theorem claim_C2 (akey ckey : List Nat) (cc ac : Nat)
    (hak : akey.length = 16) (hck : ckey.length = 16)
    (hcc : cc < 2 ^ 32) (hac : ac < 2 ^ 32) :
    ∃ tok, challenge_mode_3 cc ac akey ckey = .ok tok ∧
      tok.type_code = 9 ∧
      (natToBytesLE 4 ac).length = 4 ∧
      tok.body = zeroPadChars 6 (natToChars
        (SipHash_2_4 akey (natToBytesLE 4 ac) % 2 ^ 32 % 10 ^ 6)) ∧
      (natToBytesLE 4 cc ++ 9 :: natToBytesLE 4 (charsToNat tok.body)).length = 9 ∧
      tok.auth = zeroPadChars 6 (natToChars
        (SipHash_2_4 ckey (natToBytesLE 4 cc ++ 9 :: natToBytesLE 4 (charsToNat tok.body))
          % 2 ^ 32 % 10 ^ 6)) := by
  refine ⟨_, challenge_ok cc ac akey ckey hak hck hcc hac, rfl, ?_, ?_, ?_, ?_⟩
  · simp [natToBytesLE_length]
  · exact digits_from_siphash_eq _ 6 (by omega)
  · simp [natToBytesLE_length]
  · exact digits_from_siphash_eq _ 6 (by omega)

/-- Witness for C2 at concrete keys and counters. -/
theorem claim_C2_witness :
    ∃ tok, challenge_mode_3 7 3 zeroKey16 zeroKey16 = .ok tok ∧
      tok.type_code = 9 ∧
      (natToBytesLE 4 3).length = 4 ∧
      tok.body = zeroPadChars 6 (natToChars
        (SipHash_2_4 zeroKey16 (natToBytesLE 4 3) % 2 ^ 32 % 10 ^ 6)) ∧
      (natToBytesLE 4 7 ++ 9 :: natToBytesLE 4 (charsToNat tok.body)).length = 9 ∧
      tok.auth = zeroPadChars 6 (natToChars
        (SipHash_2_4 zeroKey16 (natToBytesLE 4 7 ++ 9 :: natToBytesLE 4 (charsToNat tok.body))
          % 2 ^ 32 % 10 ^ 6)) :=
  claim_C2 zeroKey16 zeroKey16 7 3 (by decide) (by decide) (by decide) (by decide)

/-- C3: for every tag and every width `n ≥ 1`, `digits_from_siphash`
returns the last `n` characters of the decimal representation of the low
32 bits of the tag zero-padded to width at least `n`; equivalently, the
`n` least-significant decimal digits of the low 32 bits; and the result
always consists of exactly `n` decimal-digit characters. -/
theorem claim_C3 (tag n : Nat) (hn : 1 ≤ n) :
    digits_from_siphash tag n =
      (zeroPadChars n (natToChars (tag % 2 ^ 32))).drop
        ((zeroPadChars n (natToChars (tag % 2 ^ 32))).length - n) ∧
    digits_from_siphash tag n = zeroPadChars n (natToChars (tag % 2 ^ 32 % 10 ^ n)) ∧
    (digits_from_siphash tag n).length = n ∧
    ∀ c ∈ digits_from_siphash tag n, isDecDigit c = true := by
  refine ⟨?_, digits_from_siphash_eq tag n hn, digits_from_siphash_length tag n hn,
    digits_from_siphash_digits tag n hn⟩
  simp only [digits_from_siphash]
  rw [if_neg (by omega)]

/-- Witness for C3 at a concrete tag whose low 32 bits exceed 10^6 and at
the default width 6. -/
theorem claim_C3_witness :
    digits_from_siphash 5000000042 6 =
      (zeroPadChars 6 (natToChars (5000000042 % 2 ^ 32))).drop
        ((zeroPadChars 6 (natToChars (5000000042 % 2 ^ 32))).length - 6) ∧
    digits_from_siphash 5000000042 6 =
      zeroPadChars 6 (natToChars (5000000042 % 2 ^ 32 % 10 ^ 6)) ∧
    (digits_from_siphash 5000000042 6).length = 6 ∧
    ∀ c ∈ digits_from_siphash 5000000042 6, isDecDigit c = true :=
  claim_C3 5000000042 6 (by decide)

/-- C4 counterexample: an accessory identifier of 49 bits (≥ 2^48) is not
rejected with `FieldOverflow`: the specific-accessory builder silently
masks the identifier and returns a token. -/
theorem claim_C4_counterexample :
    2 ^ 48 ≤ 2 ^ 48 + 5 ∧
    specific_accessory_builder .UNLINK_ACCESSORY (2 ^ 48 + 5) 1 zeroKey16 ≠
      .error .FieldOverflow ∧
    specific_accessory_builder .UNLINK_ACCESSORY (2 ^ 48 + 5) 1 zeroKey16 ≠
      .error .InvalidKeyLength ∧
    ∃ tok, specific_accessory_builder .UNLINK_ACCESSORY (2 ^ 48 + 5) 1 zeroKey16 =
      .ok tok := by
  refine ⟨by decide, by decide, by decide,
    ⟨_, specific_builder_ok .UNLINK_ACCESSORY (2 ^ 48 + 5) 1 zeroKey16 (by decide) (by decide)⟩⟩

/-- C4 (amended): every counter value that exceeds its 32-bit packing
field is rejected with `FieldOverflow` (and no token is produced), in all
three builders; accessory identifiers, however, are not range-checked:
bits at or above 48 are silently masked out of the packing. -/
theorem claim_C4_amended :
    (∀ (t : GenericControllerActionType) (count : Nat) (key : List Nat),
      key.length = 16 → 2 ^ 32 ≤ count →
      generic_controller_action_builder t count key = .error .FieldOverflow) ∧
    (∀ (t : OriginCommandType) (id count : Nat) (key : List Nat),
      key.length = 16 → 2 ^ 32 ≤ count →
      specific_accessory_builder t id count key = .error .FieldOverflow) ∧
    (∀ (cc ac : Nat) (akey ckey : List Nat),
      akey.length = 16 → ckey.length = 16 → 2 ^ 32 ≤ ac →
      challenge_mode_3 cc ac akey ckey = .error .FieldOverflow) ∧
    (∀ (cc ac : Nat) (akey ckey : List Nat),
      akey.length = 16 → ckey.length = 16 → ac < 2 ^ 32 → 2 ^ 32 ≤ cc →
      challenge_mode_3 cc ac akey ckey = .error .FieldOverflow) ∧
    (∀ (t : OriginCommandType) (id count : Nat) (key : List Nat),
      specific_accessory_builder t (id % 2 ^ 48) count key =
        specific_accessory_builder t id count key) := by
  refine ⟨fun t count key hk hc => generic_builder_overflow hk hc,
    fun t id count key hk hc => specific_builder_overflow hk hc,
    fun cc ac ak ck ha hc h => challenge_overflow_accessory ha hc h,
    fun cc ac ak ck ha hc h1 h2 => challenge_overflow_controller ha hc h1 h2, ?_⟩
  intro t id count key
  have hA : (id % 2 ^ 48 &&& 0xFFFF00000000) >>> 32 =
      (id &&& 0xFFFF00000000) >>> 32 := by
    rw [authority_mask_eq, authority_mask_eq]
    omega
  have hD : id % 2 ^ 48 &&& 0xFFFFFFFF = id &&& 0xFFFFFFFF := by
    rw [and_FFFFFFFF_eq_mod, and_FFFFFFFF_eq_mod]
    omega
  simp only [specific_accessory_builder]
  rw [hA, hD]

/-- Witness for the amended C4 at concrete overflowing counters and a
concrete 49-bit identifier. -/
theorem claim_C4_witness :
    generic_controller_action_builder .UNLINK_ALL_ACCESSORIES (2 ^ 32) zeroKey16 =
      .error .FieldOverflow ∧
    specific_accessory_builder .UNLOCK_ACCESSORY 5 (2 ^ 32) zeroKey16 =
      .error .FieldOverflow ∧
    challenge_mode_3 1 (2 ^ 32) zeroKey16 zeroKey16 = .error .FieldOverflow ∧
    challenge_mode_3 (2 ^ 32) 1 zeroKey16 zeroKey16 = .error .FieldOverflow ∧
    specific_accessory_builder .UNLINK_ACCESSORY ((2 ^ 48 + 5) % 2 ^ 48) 1 zeroKey16 =
      specific_accessory_builder .UNLINK_ACCESSORY (2 ^ 48 + 5) 1 zeroKey16 :=
  ⟨claim_C4_amended.1 _ _ _ (by decide) (by decide),
   claim_C4_amended.2.1 _ _ _ _ (by decide) (by decide),
   claim_C4_amended.2.2.1 _ _ _ _ (by decide) (by decide) (by decide),
   claim_C4_amended.2.2.2.1 _ _ _ _ (by decide) (by decide) (by decide) (by decide),
   claim_C4_amended.2.2.2.2 _ _ _ _⟩

/-- C5: for every token with a one-digit type code and every
length-preserving obfuscation transform, serialization with and without
obfuscation yields strings of equal length agreeing on the trailing
`len(auth)` characters (which equal the auth field); the transform is
applied to exactly the leading `1 + len(body)` characters. -/
theorem claim_C5 (f : List Char → List Char)
    (hf : ∀ l, (f l).length = l.length)
    (t : ChannelOriginCommandToken) (htc : t.type_code < 10) :
    (t.to_digits f true).length = (t.to_digits f false).length ∧
    (t.to_digits f true).drop (1 + t.body.length) = t.auth ∧
    (t.to_digits f false).drop (1 + t.body.length) = t.auth ∧
    t.to_digits f true =
      f ((t.to_digits f false).take (1 + t.body.length)) ++
        (t.to_digits f false).drop (1 + t.body.length) :=
  ⟨by rw [to_digits_length f hf t true, to_digits_length f hf t false],
   to_digits_true_drop f hf t htc,
   to_digits_false_drop f t htc,
   to_digits_true_eq f t htc⟩

/-- Witness for C5 with the reversal transform and a concrete token. -/
theorem claim_C5_witness :
    ((⟨0, ['0', '0'], ['1', '2', '3', '4', '5', '6']⟩ :
        ChannelOriginCommandToken).to_digits List.reverse true).length =
      ((⟨0, ['0', '0'], ['1', '2', '3', '4', '5', '6']⟩ :
        ChannelOriginCommandToken).to_digits List.reverse false).length ∧
    ((⟨0, ['0', '0'], ['1', '2', '3', '4', '5', '6']⟩ :
        ChannelOriginCommandToken).to_digits List.reverse true).drop (1 + 2) =
      ['1', '2', '3', '4', '5', '6'] ∧
    ((⟨0, ['0', '0'], ['1', '2', '3', '4', '5', '6']⟩ :
        ChannelOriginCommandToken).to_digits List.reverse false).drop (1 + 2) =
      ['1', '2', '3', '4', '5', '6'] ∧
    (⟨0, ['0', '0'], ['1', '2', '3', '4', '5', '6']⟩ :
        ChannelOriginCommandToken).to_digits List.reverse true =
      List.reverse (((⟨0, ['0', '0'], ['1', '2', '3', '4', '5', '6']⟩ :
          ChannelOriginCommandToken).to_digits List.reverse false).take (1 + 2)) ++
        ((⟨0, ['0', '0'], ['1', '2', '3', '4', '5', '6']⟩ :
          ChannelOriginCommandToken).to_digits List.reverse false).drop (1 + 2) :=
  claim_C5 List.reverse (fun l => List.length_reverse l)
    ⟨0, ['0', '0'], ['1', '2', '3', '4', '5', '6']⟩ (by decide)

/-- C6: with a symmetric key whose length is not 16 bytes, every builder
fails with `InvalidKeyLength` regardless of all other arguments (in
particular before any packing or hashing could be attempted), and no
token is produced. -/
theorem claim_C6 :
    (∀ (t : GenericControllerActionType) (count : Nat) (key : List Nat),
      key.length ≠ 16 →
      generic_controller_action_builder t count key = .error .InvalidKeyLength) ∧
    (∀ (t : OriginCommandType) (id count : Nat) (key : List Nat),
      key.length ≠ 16 →
      specific_accessory_builder t id count key = .error .InvalidKeyLength) ∧
    (∀ (cc ac : Nat) (akey ckey : List Nat),
      akey.length ≠ 16 ∨ ckey.length ≠ 16 →
      challenge_mode_3 cc ac akey ckey = .error .InvalidKeyLength) :=
  ⟨fun _ _ _ h => generic_builder_keylen h,
   fun _ _ _ _ h => specific_builder_keylen h,
   fun _ _ _ _ h => challenge_keylen h⟩

/-- Witness for C6 with concrete 15- and 17-byte keys. -/
theorem claim_C6_witness :
    generic_controller_action_builder .UNLINK_ALL_ACCESSORIES 1 zeroKey15 =
      .error .InvalidKeyLength ∧
    specific_accessory_builder .UNLOCK_ACCESSORY 5 1 zeroKey17 =
      .error .InvalidKeyLength ∧
    challenge_mode_3 1 1 zeroKey15 zeroKey16 = .error .InvalidKeyLength ∧
    challenge_mode_3 1 1 zeroKey16 zeroKey17 = .error .InvalidKeyLength :=
  ⟨claim_C6.1 _ _ _ (by decide),
   claim_C6.2.1 _ _ _ _ (by decide),
   claim_C6.2.2 _ _ _ _ (Or.inl (by decide)),
   claim_C6.2.2 _ _ _ _ (Or.inr (by decide))⟩

theorem token_serialized_props (f : List Char → List Char)
    (hf : ∀ l, (f l).length = l.length)
    (hfd : ∀ l, (∀ c ∈ l, isDecDigit c = true) → ∀ c ∈ f l, isDecDigit c = true)
    (tc : Nat) (B A : List Char) (htc : tc < 10)
    (hb : ∀ c ∈ B, isDecDigit c = true) (ha : ∀ c ∈ A, isDecDigit c = true)
    (ob : Bool) :
    ((⟨tc, B, A⟩ : ChannelOriginCommandToken).to_digits f ob).length =
      1 + B.length + A.length ∧
    ∀ c ∈ (⟨tc, B, A⟩ : ChannelOriginCommandToken).to_digits f ob,
      isDecDigit c = true := by
  constructor
  · rw [to_digits_length f hf _ ob]
    show (natToChars tc).length + B.length + A.length = _
    rw [natToChars_length_one htc]
  · exact to_digits_all_digits f hfd _ ob hb ha

/-- C7: for every length- and digit-preserving obfuscation transform and
all valid inputs, each builder yields a token whose serialization (in
both the obscured and the unobscured form) consists only of decimal-digit
characters and has length `1 + len(body) + len(auth)`, which is 9 for
generic controller action tokens, 8 for specific accessory tokens and 13
for link-accessory challenge tokens. -/
theorem claim_C7 (f : List Char → List Char)
    (hf : ∀ l, (f l).length = l.length)
    (hfd : ∀ l, (∀ c ∈ l, isDecDigit c = true) → ∀ c ∈ f l, isDecDigit c = true) :
    (∀ (t : GenericControllerActionType) (count : Nat) (key : List Nat),
      key.length = 16 → count < 2 ^ 32 → ∀ ob : Bool,
      ∃ tok, generic_controller_action_builder t count key = .ok tok ∧
        (tok.to_digits f ob).length = 1 + tok.body.length + tok.auth.length ∧
        (tok.to_digits f ob).length = 9 ∧
        ∀ c ∈ tok.to_digits f ob, isDecDigit c = true) ∧
    (∀ (t : OriginCommandType) (id count : Nat) (key : List Nat),
      key.length = 16 → count < 2 ^ 32 → ∀ ob : Bool,
      ∃ tok, specific_accessory_builder t id count key = .ok tok ∧
        (tok.to_digits f ob).length = 1 + tok.body.length + tok.auth.length ∧
        (tok.to_digits f ob).length = 8 ∧
        ∀ c ∈ tok.to_digits f ob, isDecDigit c = true) ∧
    (∀ (cc ac : Nat) (akey ckey : List Nat),
      akey.length = 16 → ckey.length = 16 → cc < 2 ^ 32 → ac < 2 ^ 32 → ∀ ob : Bool,
      ∃ tok, challenge_mode_3 cc ac akey ckey = .ok tok ∧
        (tok.to_digits f ob).length = 1 + tok.body.length + tok.auth.length ∧
        (tok.to_digits f ob).length = 13 ∧
        ∀ c ∈ tok.to_digits f ob, isDecDigit c = true) := by
  refine ⟨?_, ?_, ?_⟩
  · intro t count key hkey hc ob
    have htv : t.value < 10 := by cases t <;> decide
    have hbl : (zeroPadChars 2 (natToChars t.value)).length = 2 :=
      zeroPadChars_length (by rw [natToChars_length_one htv]; omega)
    have hal := digits_from_siphash_length
      (SipHash_2_4 key (natToBytesLE 4 count ++ 0 :: natToBytesLE 4 t.value)) 6 (by omega)
    have hp := token_serialized_props f hf hfd 0
      (zeroPadChars 2 (natToChars t.value))
      (digits_from_siphash
        (SipHash_2_4 key (natToBytesLE 4 count ++ 0 :: natToBytesLE 4 t.value)) 6)
      (by omega) (zeroPadChars_digits (natToChars_digits _))
      (digits_from_siphash_digits _ 6 (by omega)) ob
    refine ⟨_, generic_builder_ok t count key hkey hc, hp.1, ?_, hp.2⟩
    rw [hp.1, hbl, hal]
  · intro t id count key hkey hc ob
    have htv : t.value < 10 := by cases t <;> decide
    have hmod : id % 2 ^ 32 % 10 < 10 := Nat.mod_lt _ (by omega)
    have hbl : (zeroPadChars 1 (natToChars (id % 2 ^ 32 % 10))).length = 1 :=
      zeroPadChars_length (by rw [natToChars_length_one hmod])
    have hal := digits_from_siphash_length
      (SipHash_2_4 key
        (natToBytesLE 4 count ++ t.value ::
          (natToBytesLE 2 (id / 2 ^ 32 % 2 ^ 16) ++ natToBytesLE 4 (id % 2 ^ 32)))) 6 (by omega)
    have hp := token_serialized_props f hf hfd t.value
      (zeroPadChars 1 (natToChars (id % 2 ^ 32 % 10)))
      (digits_from_siphash
        (SipHash_2_4 key
          (natToBytesLE 4 count ++ t.value ::
            (natToBytesLE 2 (id / 2 ^ 32 % 2 ^ 16) ++ natToBytesLE 4 (id % 2 ^ 32)))) 6)
      htv (zeroPadChars_digits (natToChars_digits _))
      (digits_from_siphash_digits _ 6 (by omega)) ob
    refine ⟨_, specific_builder_ok t id count key hkey hc, hp.1, ?_, hp.2⟩
    rw [hp.1, hbl, hal]
  · intro cc ac akey ckey hak hck hcc hac ob
    have hbl := digits_from_siphash_length
      (SipHash_2_4 akey (natToBytesLE 4 ac)) 6 (by omega)
    have hal := digits_from_siphash_length
      (SipHash_2_4 ckey
        (natToBytesLE 4 cc ++ 9 ::
          natToBytesLE 4
            (charsToNat (digits_from_siphash (SipHash_2_4 akey (natToBytesLE 4 ac)) 6)))) 6
      (by omega)
    have hp := token_serialized_props f hf hfd 9
      (digits_from_siphash (SipHash_2_4 akey (natToBytesLE 4 ac)) 6)
      (digits_from_siphash
        (SipHash_2_4 ckey
          (natToBytesLE 4 cc ++ 9 ::
            natToBytesLE 4
              (charsToNat
                (digits_from_siphash (SipHash_2_4 akey (natToBytesLE 4 ac)) 6)))) 6)
      (by omega) (digits_from_siphash_digits _ 6 (by omega))
      (digits_from_siphash_digits _ 6 (by omega)) ob
    refine ⟨_, challenge_ok cc ac akey ckey hak hck hcc hac, hp.1, ?_, hp.2⟩
    rw [hp.1, hbl, hal]

/-- Witness for C7 with the identity transform, concrete keys, counters
and identifier, for both values of the obfuscation flag. -/
theorem claim_C7_witness :
    (∃ tok, generic_controller_action_builder .UNLOCK_ALL_ACCESSORIES 2 zeroKey16 = .ok tok ∧
      (tok.to_digits (fun l => l) true).length = 1 + tok.body.length + tok.auth.length ∧
      (tok.to_digits (fun l => l) true).length = 9 ∧
      ∀ c ∈ tok.to_digits (fun l => l) true, isDecDigit c = true) ∧
    (∃ tok, specific_accessory_builder .UNLINK_ACCESSORY 12345 2 zeroKey16 = .ok tok ∧
      (tok.to_digits (fun l => l) false).length = 1 + tok.body.length + tok.auth.length ∧
      (tok.to_digits (fun l => l) false).length = 8 ∧
      ∀ c ∈ tok.to_digits (fun l => l) false, isDecDigit c = true) ∧
    (∃ tok, challenge_mode_3 2 3 zeroKey16 zeroKey16 = .ok tok ∧
      (tok.to_digits (fun l => l) true).length = 1 + tok.body.length + tok.auth.length ∧
      (tok.to_digits (fun l => l) true).length = 13 ∧
      ∀ c ∈ tok.to_digits (fun l => l) true, isDecDigit c = true) :=
  ⟨(claim_C7 (fun l => l) (fun _ => rfl) (fun _ h => h)).1 .UNLOCK_ALL_ACCESSORIES 2
      zeroKey16 (by decide) (by decide) true,
   (claim_C7 (fun l => l) (fun _ => rfl) (fun _ h => h)).2.1 .UNLINK_ACCESSORY 12345 2
      zeroKey16 (by decide) (by decide) false,
   (claim_C7 (fun l => l) (fun _ => rfl) (fun _ h => h)).2.2 2 3 zeroKey16 zeroKey16
      (by decide) (by decide) (by decide) (by decide) true⟩

/-- C8 counterexample: the identifiers 6 and 2^32 agree mod 10 and are
both below 2^48, yet the specific-accessory builder emits different body
digits for them (the body digit is taken from the low 32 bits only). -/
theorem claim_C8_counterexample :
    (6 : Nat) ≠ 4294967296 ∧
    (6 : Nat) % 10 = 4294967296 % 10 ∧
    (6 : Nat) ≤ 2 ^ 48 - 1 ∧ (4294967296 : Nat) ≤ 2 ^ 48 - 1 ∧
    ∃ t1 t2, unlink_specific_accessory 6 1 zeroKey16 = .ok t1 ∧
      unlink_specific_accessory 4294967296 1 zeroKey16 = .ok t2 ∧
      t1.body ≠ t2.body := by
  refine ⟨by decide, by decide, by decide, by decide, _, _,
    specific_builder_ok .UNLINK_ACCESSORY 6 1 zeroKey16 (by decide) (by decide),
    specific_builder_ok .UNLINK_ACCESSORY 4294967296 1 zeroKey16 (by decide) (by decide),
    by decide⟩

/-- C8 (amended): the specific-accessory builder emits the same single
body digit for two identifiers exactly when their low 32 bits agree
mod 10 — the transmitted digit is `(id & 0xFFFFFFFF) mod 10`, not
`id mod 10`. -/
theorem claim_C8_amended (t : OriginCommandType) (a b count : Nat)
    (key : List Nat) (hkey : key.length = 16) (hcount : count < 2 ^ 32)
    (hab : a % 2 ^ 32 % 10 = b % 2 ^ 32 % 10) :
    ∃ t1 t2, specific_accessory_builder t a count key = .ok t1 ∧
      specific_accessory_builder t b count key = .ok t2 ∧
      t1.body = t2.body := by
  refine ⟨_, _, specific_builder_ok t a count key hkey hcount,
    specific_builder_ok t b count key hkey hcount, ?_⟩
  show zeroPadChars 1 (natToChars (a % 2 ^ 32 % 10)) =
    zeroPadChars 1 (natToChars (b % 2 ^ 32 % 10))
  rw [hab]

/-- Witness for the amended C8 at identifiers 6 and 2^32 + 6. -/
theorem claim_C8_witness :
    ∃ t1 t2, specific_accessory_builder .UNLINK_ACCESSORY 6 1 zeroKey16 = .ok t1 ∧
      specific_accessory_builder .UNLINK_ACCESSORY 4294967302 1 zeroKey16 = .ok t2 ∧
      t1.body = t2.body :=
  claim_C8_amended .UNLINK_ACCESSORY 6 4294967302 1 zeroKey16
    (by decide) (by decide) (by decide)

/-- C9: with an all-zero 16-byte controller key and count 1, building
unlink-all-accessories yields a token whose unobscured serialization is a
9-character string of decimal digits starting with "000" and ending with
the 6 least-significant decimal digits of the low 32 bits of the
SipHash-2-4 tag of the packing of (count 1, type 0, action 0). -/
theorem claim_C9 :
    ∃ tok, unlink_all_accessories 1 zeroKey16 = .ok tok ∧
      (tok.to_digits (fun l => l) false).length = 9 ∧
      (∀ c ∈ tok.to_digits (fun l => l) false, isDecDigit c = true) ∧
      (tok.to_digits (fun l => l) false).take 3 = ['0', '0', '0'] ∧
      (tok.to_digits (fun l => l) false).drop 3 =
        zeroPadChars 6 (natToChars
          (SipHash_2_4 zeroKey16 (natToBytesLE 4 1 ++ 0 :: natToBytesLE 4 0)
            % 2 ^ 32 % 10 ^ 6)) := by
  refine ⟨_,
    generic_builder_ok .UNLINK_ALL_ACCESSORIES 1 zeroKey16 (by decide) (by decide),
    by decide, by decide, by decide, by decide⟩

/-- C10: bits of the accessory identifier at or above bit 48 are ignored
completely: adding any multiple of 2^48 yields the identical token (type,
body and auth), with no error raised. -/
theorem claim_C10 (t : OriginCommandType) (id k count : Nat) (key : List Nat)
    (hkey : key.length = 16) (hcount : count < 2 ^ 32) :
    ∃ tok, specific_accessory_builder t (id + k * 2 ^ 48) count key = .ok tok ∧
      specific_accessory_builder t id count key = .ok tok := by
  rw [specific_builder_ok t (id + k * 2 ^ 48) count key hkey hcount,
    specific_builder_ok t id count key hkey hcount]
  have h1 : (id + k * 2 ^ 48) % 2 ^ 32 = id % 2 ^ 32 := by omega
  have h2 : (id + k * 2 ^ 48) / 2 ^ 32 % 2 ^ 16 = id / 2 ^ 32 % 2 ^ 16 := by omega
  rw [h1, h2]
  exact ⟨_, rfl, rfl⟩

/-- Witness for C10 at identifier 5, multiple 1 * 2^48. -/
theorem claim_C10_witness :
    ∃ tok, specific_accessory_builder .UNLOCK_ACCESSORY (5 + 1 * 2 ^ 48) 1 zeroKey16 =
      .ok tok ∧
      specific_accessory_builder .UNLOCK_ACCESSORY 5 1 zeroKey16 = .ok tok :=
  claim_C10 .UNLOCK_ACCESSORY 5 1 1 zeroKey16 (by decide) (by decide)

/-- Sanity check of the SipHash-2-4 embedding against the reference test
vectors (key `000102...0f`, messages of increasing length). -/
theorem sipHash_reference_vectors :
    SipHash_2_4 [0,1,2,3,4,5,6,7,8,9,10,11,12,13,14,15] [] = 0x726fdb47dd0e0e31 ∧
    SipHash_2_4 [0,1,2,3,4,5,6,7,8,9,10,11,12,13,14,15] [0] = 0x74f839c593dc67fd ∧
    SipHash_2_4 [0,1,2,3,4,5,6,7,8,9,10,11,12,13,14,15] [0,1,2,3,4,5,6,7,8] =
      0x9e0082df0ba9e4b0 := by
  refine ⟨by decide, by decide, by decide⟩
